import Mathlib

/-!
Verification of the voice-session orchestration engine of the hello.ai-gem
repository, against its natural-language specification.

The development shallowly embeds the two relevant source files:

* `src/unnamed/part_000` — the `GeminiVoiceService` class (session store,
  `startSession`, `processTranscription`, `endSession`, `hasSession`, the
  Gemini / text-to-speech / Cloudinary helpers);
* `src/src/app/api/webhook/route.ts` — `extractCaptionText`,
  `ensureGeminiSessionForMeeting`, and the `POST` webhook router.

Modelling conventions:

* The JavaScript `Map<string, T>` (and the meeting / agent database tables,
  accessed only by primary key here) are modelled as association lists with
  unique keys; `mapSet` overwrites in place exactly as `Map.set` does.
* External calls (the Gemini model, Google text-to-speech, the Cloudinary
  upload, the Stream `upsertUsers` call, the transcript fetch) are modelled
  by oracle values describing the outcome of each call: `Except Unit α`
  stands for a promise that either resolves with an `α` or rejects.  The
  embedded control flow around these outcomes is translated line by line
  from the source (`try`/`catch`/`finally` become matches on the oracle).
* `async`/`await` sequencing within one handler is sequential in the model;
  the single-threaded JavaScript event loop runs each synchronous segment
  (code between `await` points) atomically, which is what makes the
  check-and-enter prefix of `processTranscription` (lines 123–132, no
  `await` inside) a single atomic step; `tryEnterTurn` below models exactly
  that segment.
* JSON payload values are the inductive `JsonVal`; JavaScript truthiness,
  the `||` operator and property access on non-objects are modelled by
  `jsTruthy`, `jsOr` and `getField`.  `undefined` (an absent property) is
  `Option.none`.  JS numbers are modelled as `Int` (no claim depends on
  float behaviour), and duplicate keys inside one JSON object are not
  modelled (`JSON.parse` collapses them before the code under study runs).
-/

namespace HelloAiGem

/-! ## Association-list maps (JS `Map` and keyed database rows) -/

/-- Lookup in an association list; models `Map.get` / select-by-id. -/
def mapGet {α : Type} : List (String × α) → String → Option α
  | [], _ => none
  | (k, v) :: rest, key => if key = k then some v else mapGet rest key

/-- Insert-or-overwrite; models `Map.set` (and an update of a keyed row). -/
def mapSet {α : Type} : List (String × α) → String → α → List (String × α)
  | [], key, value => [(key, value)]
  | (k, v) :: rest, key, value =>
    if key = k then (key, value) :: rest else (k, v) :: mapSet rest key value

/-- Key removal; models `Map.delete` (no-op when the key is absent). -/
def mapDelete {α : Type} : List (String × α) → String → List (String × α)
  | [], _ => []
  | (k, v) :: rest, key =>
    if key = k then mapDelete rest key else (k, v) :: mapDelete rest key

/-- Membership; models `Map.has`. -/
def mapHas {α : Type} (m : List (String × α)) (key : String) : Bool :=
  (mapGet m key).isSome

/-- Conditional in-place update of the value at a key; models a SQL
`UPDATE ... WHERE id = key AND predicate` (rows not matching are left
untouched). -/
def mapUpdateIf {α : Type} : List (String × α) → String → (α → Bool) → (α → α) →
    List (String × α)
  | [], _, _, _ => []
  | (k, v) :: rest, key, p, f =>
    if key = k then (if p v then (k, f v) else (k, v)) :: rest
    else (k, v) :: mapUpdateIf rest key p f

/-! ## JSON payload values and JavaScript semantics helpers -/

/-- JSON values as delivered to the webhook after `JSON.parse`. -/
inductive JsonVal where
  | null
  | bool (b : Bool)
  | num (n : Int)
  | str (s : String)
  | arr (elems : List JsonVal)
  | obj (fields : List (String × JsonVal))

/-- JavaScript truthiness of a JSON value (`NaN` is not modelled; `Int`
stands in for JS numbers). -/
def jsTruthy : JsonVal → Bool
  | .null => false
  | .bool b => b
  | .num n => n != 0
  | .str s => s != ""
  | .arr _ => true
  | .obj _ => true

/-- JavaScript `a || b` over possibly-undefined values: the left operand is
kept when present and truthy, otherwise the right operand (even when that
one is falsy or undefined). -/
def jsOr (a b : Option JsonVal) : Option JsonVal :=
  match a with
  | some v => if jsTruthy v then some v else b
  | none => b

/-- Property access `v.key`.  On a JS object it is the field (or
`undefined`); on every non-object (string, number, boolean, null, array)
accessing the keys used by this code (`text`, `caption`, `content`,
`payload`, `data`, …) yields `undefined` without throwing, which is what
the `none` branches model.  Numeric-string indexing of arrays is never
performed by the embedded code, so `arr` also maps to `none`. -/
def getField : JsonVal → String → Option JsonVal
  | .obj fields, key => mapGet fields key
  | _, _ => none

/-- The value is a non-null object in the `typeof` sense (`typeof v ===
'object' && v`): true exactly for objects and arrays. -/
def jsIsObject : JsonVal → Bool
  | .obj _ => true
  | .arr _ => true
  | _ => false

/-- Entries of `Object.entries(o)`: the fields of an object, or the
index-keyed elements of an array. -/
def entriesOf : JsonVal → List (String × JsonVal)
  | .obj fields => fields
  | .arr elems => elems.enum.map (fun p => (toString p.1, p.2))
  | _ => []

/-! ## CaptionNormalizer — `extractCaptionText` (route.ts lines 27–63) -/

/- Size of a JSON value, used only as termination fuel for the recursive
scan below (each recursion step of the source descends into a strict
sub-value, so the size strictly bounds the recursion depth). -/
mutual
def jsonSize : JsonVal → Nat
  | .arr elems => 1 + jsonSizeL elems
  | .obj fields => 1 + jsonSizeF fields
  | _ => 1
def jsonSizeL : List JsonVal → Nat
  | [] => 0
  | v :: rest => jsonSize v + jsonSizeL rest
def jsonSizeF : List (String × JsonVal) → Nat
  | [] => 0
  | (_, v) :: rest => jsonSize v + jsonSizeF rest
end

/-- Is the key one of the text-like keys of the fallback scan? -/
def textKey (k : String) : Bool :=
  k == "text" || k == "caption" || k == "content"

/-- The test `s.trim().length > 0` of the source: the string contains at
least one non-whitespace character.  (Stated directly on the characters
because the source only ever consumes the trimmed string through this
emptiness test.) -/
def trimNonempty (s : String) : Bool :=
  s.data.any (fun c => !c.isWhitespace)

/-- Reading `cc.text || cc.caption || cc.content` and keeping the result
only when it is a string with non-blank content — the check
`typeof direct === 'string' && direct.trim().length > 0` (used both for the
direct location and for the nested `payload`/`data` location). -/
def textCaptionContent (cc : JsonVal) : Option String :=
  match jsOr (jsOr (getField cc "text") (getField cc "caption")) (getField cc "content") with
  | some (.str s) => if trimNonempty s then some s else none
  | _ => none

/-- The known-locations part of `extractCaptionText` (route.ts lines
32–46): `o.closed_caption || o.caption`, its direct `text`/`caption`/
`content` field, then the same fields one level deeper under its
`payload`/`data` substructure. -/
def knownLocations (o : JsonVal) : Option String :=
  match jsOr (getField o "closed_caption") (getField o "caption") with
  | some cc =>
    if jsTruthy cc then
      match textCaptionContent cc with
      | some s => some s
      | none =>
        match jsOr (getField cc "payload") (getField cc "data") with
        | some p => if jsTruthy p then textCaptionContent p else none
        | none => none
    else none
  | none => none

/-- The fallback `for (const [k, v] of Object.entries(o))` loop (route.ts
lines 48–60), parameterised by the recursive call made on nested objects.
A string value is returned when its key is text-like and its trimmed
content non-empty; an object-valued entry is searched recursively and the
result returned when truthy (`if (inner) return inner`). -/
def scanEntries (recurse : JsonVal → Option String) :
    List (String × JsonVal) → Option String
  | [] => none
  | (k, v) :: rest =>
    match v with
    | .str s =>
      if textKey k && trimNonempty s then some s else scanEntries recurse rest
    | .obj fields =>
      match recurse (.obj fields) with
      | some inner =>
        if inner != "" then some inner else scanEntries recurse rest
      | none => scanEntries recurse rest
    | .arr elems =>
      match recurse (.arr elems) with
      | some inner =>
        if inner != "" then some inner else scanEntries recurse rest
      | none => scanEntries recurse rest
    | _ => scanEntries recurse rest

/-- Fuelled body of `extractCaptionText`.  The source recursion descends
strictly into sub-values of the payload, so on a (finite) `JsonVal` it
always terminates; the fuel is a Lean-side termination device only and is
instantiated with `jsonSize` of the payload, which the recursion can never
exhaust (`extractGo_fuel_irrelevant` below shows any sufficient fuel gives
the same answer).  The `0` case is therefore dead code on the wrapper's
inputs.  A non-object / null payload short-circuits to `null` exactly as
`if (!obj || typeof obj !== 'object') return null` does. -/
def extractGo : Nat → JsonVal → Option String
  | 0, _ => none
  | fuel + 1, j =>
    if jsIsObject j then
      match knownLocations j with
      | some s => some s
      | none => scanEntries (extractGo fuel) (entriesOf j)
    else none

/-- Model of `extractCaptionText` (route.ts lines 27–63).  The wrapping
`try`/`catch` of the source can never fire — every step of the body is a
non-throwing JS operation — which matches this model being total. -/
def extractCaptionText (j : JsonVal) : Option String :=
  extractGo (jsonSize j) j

/-! ## GeminiVoiceService — `src/unnamed/part_000` -/

/-- One entry of `conversationHistory`: `{ role: string; content: string }`. -/
structure ChatMessage where
  role : String
  content : String
deriving DecidableEq, Repr

/-- One entry of `audioResponses`: `{ text, audioUrl, timestamp }` (the
`Date` timestamp is modelled as a number). -/
structure AudioResponse where
  text : String
  audioUrl : String
  timestamp : Nat
deriving DecidableEq, Repr

/-- The `GeminiVoiceSession` interface (part_000 lines 89–96).  The opaque
Stream `call` handle is kept as its id (`call.id`, which `startSession`
uses as the session key). -/
structure GeminiVoiceSession where
  callId : String
  agentUserId : String
  instructions : String
  conversationHistory : List ChatMessage
  isProcessing : Bool
  audioResponses : List AudioResponse
deriving DecidableEq, Repr

/-- The private `sessions: Map<string, GeminiVoiceSession>` field. -/
abbrev SessionMap : Type := List (String × GeminiVoiceSession)

/-- Outcomes of the external calls made by one execution of
`processTranscription`.  `geminiText` is the text produced by
`model.generateContent` (`Except.error` = the promise rejected);
`ttsAudio` is the result of `textToSpeech` (`none` = no TTS client
configured, so the method returns `null`; `some bytes` = a synthesized
audio buffer; `Except.error` = `synthesizeSpeech` rejected or returned no
`audioContent`, both of which make `textToSpeech` throw); `uploadUrl` is
the result of `uploadToCloudinary` (`Except.error` = the upload rejected
or returned no URL); `now` is the `Date` taken for the appended record. -/
structure TurnOracle where
  geminiText : Except Unit String
  ttsAudio : Except Unit (Option (List Nat))
  uploadUrl : Except Unit String
  now : Nat

/-- The fixed apology substituted for an empty model output
(part_000 line 258). -/
def fallbackApology : String := "I apologize, but I could not generate a response."

/-- Model of `generateGeminiResponse` (part_000 lines 236–259): propagate
a rejection, otherwise return the model text with the empty string
replaced by the fallback apology (`return text || '...'`). -/
def generateGeminiResponse (o : Except Unit String) : Except Unit String :=
  match o with
  | .error e => .error e
  | .ok t => .ok (if t = "" then fallbackApology else t)

/-- The body of the `try` block of `processTranscription` (part_000 lines
134–198) together with the enclosing `catch` (line 199): push the user
message, call Gemini, push the assistant reply, synthesize, upload, and
append to `audioResponses`; any rejection is caught and the session is
left as mutated so far.  Note the two degradation asymmetries of the
source: a `textToSpeech` rejection aborts the remainder of the `try`
block (no `audioResponses` entry), and a Cloudinary upload failure is
caught by the inner `catch` (lines 175–180) which only logs — it does not
append a text-only record either; only the `audioBuffer === null` branch
(lines 181–191) appends with an empty `audioUrl`. -/
def runTurnBody (s : GeminiVoiceSession) (transcriptionText : String)
    (o : TurnOracle) : GeminiVoiceSession :=
  let s1 := { s with
    conversationHistory := s.conversationHistory ++ [⟨"user", transcriptionText⟩] }
  match generateGeminiResponse o.geminiText with
  | .error _ => s1
  | .ok reply =>
    let s2 := { s1 with
      conversationHistory := s1.conversationHistory ++ [⟨"assistant", reply⟩] }
    match o.ttsAudio with
    | .error _ => s2
    | .ok none =>
      { s2 with audioResponses := s2.audioResponses ++ [⟨reply, "", o.now⟩] }
    | .ok (some _) =>
      match o.uploadUrl with
      | .error _ => s2
      | .ok url =>
        { s2 with audioResponses := s2.audioResponses ++ [⟨reply, url, o.now⟩] }

/-- Model of `processTranscription` (part_000 lines 118–204).  The guard
section returns the store untouched when the session is absent, already
processing, or the speaker is the agent itself; otherwise `isProcessing`
is set, the pipeline body runs with every rejection caught, and the
`finally` clears `isProcessing` on every path.  The method itself never
rejects (all awaited calls sit inside the `try`), so the model is a total
function on the store. -/
def processTranscription (sessions : SessionMap) (callId transcriptionText speakerId : String)
    (o : TurnOracle) : SessionMap :=
  match mapGet sessions callId with
  | none => sessions
  | some session =>
    if session.isProcessing then sessions
    else if speakerId = session.agentUserId then sessions
    else
      mapSet sessions callId
        { runTurnBody { session with isProcessing := true } transcriptionText o with
          isProcessing := false }

/-- The synchronous check-and-enter prefix of `processTranscription`
(part_000 lines 123–132).  These lines contain no `await`, so the
JavaScript event loop executes them as one atomic step: no other
invocation can interleave between the `isProcessing` read and the
`isProcessing = true` write.  `none` means the invocation returned as a
no-op; `some` is the store after entering (flag set). -/
def tryEnterTurn (sessions : SessionMap) (callId speakerId : String) :
    Option SessionMap :=
  match mapGet sessions callId with
  | none => none
  | some session =>
    if session.isProcessing then none
    else if speakerId = session.agentUserId then none
    else some (mapSet sessions callId { session with isProcessing := true })

/-- Model of `startSession` (part_000 lines 101–116): unconditionally
installs a fresh session under `call.id` (a `Map.set`, overwriting any
existing entry). -/
def startSession (sessions : SessionMap) (callId agentUserId instructions : String) :
    SessionMap :=
  mapSet sessions callId
    { callId := callId
      agentUserId := agentUserId
      instructions := instructions
      conversationHistory := []
      isProcessing := false
      audioResponses := [] }

/-- Model of `endSession` (part_000 lines 306–309): delete the entry. -/
def endSession (sessions : SessionMap) (callId : String) : SessionMap :=
  mapDelete sessions callId

/-- Model of `hasSession` (part_000 lines 311–313). -/
def hasSession (sessions : SessionMap) (callId : String) : Bool :=
  mapHas sessions callId

/-! ## Webhook router — `src/src/app/api/webhook/route.ts` -/

/-- Meeting status values used by the router. -/
inductive MeetingStatus where
  | upcoming
  | active
  | processing
  | completed
  | cancelled
deriving DecidableEq, Repr

/-- The columns of the `meetings` row that the route reads or writes
(keyed by `meetings.id` in the `World` below). -/
structure Meeting where
  agentId : String
  status : MeetingStatus
  startedAt : Option Nat
  endedAt : Option Nat
  transcriptUrl : Option String
  recordingUrl : Option String
deriving DecidableEq, Repr

/-- The columns of the `agents` row the route reads (keyed by `agents.id`). -/
structure Agent where
  name : String
  instructions : String
deriving DecidableEq, Repr

/-- State touched by the webhook route: the two database tables and the
in-memory `geminiVoiceService.sessions` map.  The Stream SDK, the OpenAI
realtime join and the inngest notification mutate no modelled state. -/
structure World where
  meetings : List (String × Meeting)
  agents : List (String × Agent)
  sessions : SessionMap

/-- Outcomes of the external calls a single `POST` invocation may make.
`upsertRetryOk` is the overall outcome of the `doUpsert` call with its one
retry in the `call.session_started` branch (when both attempts reject, the
surrounding `catch` at route.ts line 258 skips `startSession`); the
`upsertUsers` call inside `ensureGeminiSessionForMeeting` has its own
`catch` and never affects control flow, so it needs no oracle.  `fetchOk`
is the outcome of fetching the transcript artifact; `turnOracle i` is the
oracle for the i-th `processTranscription` call made while handling the
event; `now` is `new Date()`. -/
structure RouteOracle where
  upsertRetryOk : Bool
  fetchOk : Bool
  turnOracle : Nat → TurnOracle
  now : Nat

/-- Model of `ensureGeminiSessionForMeeting` (route.ts lines 69–130): an
existing session short-circuits to `true`; otherwise the meeting and its
agent are loaded (either missing gives `false`), the best-effort
`upsertUsers` is ignored, and a fresh session is started. -/
def ensureGeminiSessionForMeeting (w : World) (meetingId : String) : Bool × World :=
  if hasSession w.sessions meetingId then (true, w)
  else
    match mapGet w.meetings meetingId with
    | none => (false, w)
    | some meeting =>
      match mapGet w.agents meeting.agentId with
      | none => (false, w)
      | some agent =>
        (true, { w with
          sessions := startSession w.sessions meetingId meeting.agentId agent.instructions })

/-- The four-fold status condition of the `call.session_started` guard
query (route.ts lines 167–178): the row is selected only when its status
differs from `active`, `completed`, `cancelled` and `processing`. -/
def eligibleForStart (st : MeetingStatus) : Bool :=
  !(st == .active) && !(st == .completed) && !(st == .cancelled) && !(st == .processing)

/-- Model of the `call.session_started` branch (route.ts lines 159–260):
missing `meetingId` is a 400; a meeting failing the guard select is a 404
with nothing mutated; otherwise the status is set to `active` (with
`startedAt`), the agent is loaded (missing agent: 404, with the status
already updated), the agent identity is upserted with one retry (a double
failure is caught and skips the session start), and a fresh Gemini session
is started.  The OpenAI realtime join has its own `catch` and mutates no
modelled state.  The branch then falls through to the final 200. -/
def handleSessionStarted (w : World) (meetingId : Option String)
    (o : RouteOracle) : Nat × World :=
  match meetingId with
  | none => (400, w)
  | some mid =>
    match mapGet w.meetings mid with
    | none => (404, w)
    | some meeting =>
      if eligibleForStart meeting.status then
        let w1 := { w with
          meetings := mapSet w.meetings mid
            { meeting with status := .active, startedAt := some o.now } }
        match mapGet w.agents meeting.agentId with
        | none => (404, w1)
        | some agent =>
          if o.upsertRetryOk then
            (200, { w1 with
              sessions := startSession w1.sessions mid meeting.agentId agent.instructions })
          else (200, w1)
      else (404, w)

/-- Model of the `call.session_participant_left` branch (route.ts lines
261–273): missing `meetingId` is a 400; otherwise the session is kept
alive and nothing changes. -/
def handleParticipantLeft (w : World) (meetingId : Option String) : Nat × World :=
  match meetingId with
  | none => (400, w)
  | some _ => (200, w)

/-- Model of the `call.session_ended` branch (route.ts lines 274–291):
missing `meetingId` is a 400; otherwise the Gemini session is ended first,
and then the meeting status is moved `active → processing` (with
`endedAt`) by a conditional update that leaves a non-`active` meeting
untouched. -/
def handleSessionEnded (w : World) (meetingId : Option String)
    (o : RouteOracle) : Nat × World :=
  match meetingId with
  | none => (400, w)
  | some mid =>
    let w1 := { w with sessions := endSession w.sessions mid }
    (200, { w1 with
      meetings := mapUpdateIf w1.meetings mid (fun m => m.status == .active)
        (fun m => { m with status := .processing, endedAt := some o.now }) })

/-- One parsed transcript line: `some (text, speakerId)` when the line is
valid JSON carrying truthy `text` and `speaker_id` fields, `none` when the
line is malformed or lacks either field (both are skipped by the loop at
route.ts lines 326–343 without aborting the batch). -/
abbrev TranscriptLine : Type := Option (String × String)

/-- The per-line loop of the `call.transcription_ready` branch: each
well-formed line is fed to `processTranscription` in file order (consuming
the next turn oracle); skipped lines consume nothing. -/
def processLines (sessions : SessionMap) (meetingId : String)
    (o : RouteOracle) : List TranscriptLine → Nat → SessionMap
  | [], _ => sessions
  | none :: rest, i => processLines sessions meetingId o rest i
  | some (text, speaker) :: rest, i =>
    processLines (processTranscription sessions meetingId text speaker (o.turnOracle i))
      meetingId o rest (i + 1)

/-- Model of the `call.transcription_ready` branch (route.ts lines
292–355).  The update-returning sets `transcriptUrl` and yields the row;
an absent meeting (including an unparsable `call_cid`) is a 404.  When a
session exists the transcript artifact is fetched (a rejected fetch is
caught and skipped) and its lines are processed in order.  The final
inngest notification is fire-and-forget and mutates no modelled state. -/
def handleTranscriptionReady (w : World) (meetingId : Option String)
    (url : String) (lines : List TranscriptLine) (o : RouteOracle) : Nat × World :=
  match meetingId with
  | none => (404, w)
  | some mid =>
    match mapGet w.meetings mid with
    | none => (404, w)
    | some meeting =>
      let w1 := { w with
        meetings := mapSet w.meetings mid { meeting with transcriptUrl := some url } }
      if hasSession w1.sessions mid then
        if o.fetchOk then
          (200, { w1 with sessions := processLines w1.sessions mid o lines 0 })
        else (200, w1)
      else (200, w1)

/-- Model of the `call.recording_ready` branch (route.ts lines 356–365):
an unconditional keyed update of `recordingUrl` with no existence check;
the branch always falls through to the final 200. -/
def handleRecordingReady (w : World) (meetingId : Option String)
    (url : String) : Nat × World :=
  match meetingId with
  | none => (200, w)
  | some mid =>
    (200, { w with
      meetings := mapUpdateIf w.meetings mid (fun _ => true)
        (fun m => { m with recordingUrl := some url }) })

/-- Speaker resolution of the `call.closed_caption` branch (route.ts lines
390–394): the first truthy of `user.id`, `closed_caption.user_id`,
`speaker_id`, else the placeholder `user`.  The source reads these through
a typed view, so only string-valued fields are considered here; a truthy
non-string in one of the slots would flow through as a speaker id equal to
no agent id, indistinguishable from a fresh speaker for every modelled
claim. -/
def resolveSpeakerId (p : JsonVal) : String :=
  match jsOr (jsOr ((getField p "user").bind (fun u => getField u "id"))
      ((getField p "closed_caption").bind (fun c => getField c "user_id")))
      (getField p "speaker_id") with
  | some (.str s) => if s != "" then s else "user"
  | _ => "user"

/-- Model of the `call.closed_caption` branch (route.ts lines 366–408):
no resolvable meeting id → acknowledged as ignored; then the lazy
`ensureGeminiSessionForMeeting`; a failed ensure → ignored; then caption
extraction; empty text → ignored; otherwise one `processTranscription`
call.  Every path acknowledges with a 200. -/
def handleClosedCaption (w : World) (meetingId : Option String)
    (payload : JsonVal) (o : RouteOracle) : Nat × World :=
  match meetingId with
  | none => (200, w)
  | some mid =>
    let ensured := ensureGeminiSessionForMeeting w mid
    if ensured.1 then
      match extractCaptionText payload with
      | none => (200, ensured.2)
      | some text =>
        if trimNonempty text = false then (200, ensured.2)
        else
          (200, { ensured.2 with
            sessions := processTranscription ensured.2.sessions mid text
              (resolveSpeakerId payload) (o.turnOracle 0) })
    else (200, ensured.2)

/-- Model of the `call.closed_captions_started` / `call.transcription_started`
branch (route.ts lines 409–430): best-effort lazy ensure, always a 200. -/
def handleCaptionsStarted (w : World) (meetingId : Option String) : Nat × World :=
  match meetingId with
  | none => (200, w)
  | some mid => (200, (ensureGeminiSessionForMeeting w mid).2)

/-- A parsed webhook event, after the `type` dispatch.  `meetingId` is the
already-extracted identifier: `call.custom?.meetingId` for
`sessionStarted` / `sessionEnded`, `call_cid.split(':')[1]` (or the
`call.cid` fallback for captions) for the rest — `none` when the payload
lacks it.  `closedCaption` also carries the raw payload handed to
`extractCaptionText` and the speaker resolution. -/
inductive WebhookEvent where
  | sessionStarted (meetingId : Option String)
  | participantLeft (meetingId : Option String)
  | sessionEnded (meetingId : Option String)
  | transcriptionReady (meetingId : Option String) (url : String)
      (lines : List TranscriptLine)
  | recordingReady (meetingId : Option String) (url : String)
  | closedCaption (meetingId : Option String) (payload : JsonVal)
  | captionsStarted (meetingId : Option String)
  | otherEvent

/-- The authentication / parsing preamble of `POST` (route.ts lines
133–154): presence of the two headers, validity of the signature, and
parseability of the JSON body. -/
structure RequestMeta where
  hasSignature : Bool
  hasApiKey : Bool
  signatureValid : Bool
  jsonValid : Bool

/-- Model of the `POST` handler (route.ts lines 132–433): the preamble
rejections (400 missing headers, 401 bad signature, 400 bad JSON), the
per-event-type dispatch, and the final `{ status: 'ok' }` 200 for every
branch that does not return early — including unrecognized event types. -/
def webhookPost (req : RequestMeta) (ev : WebhookEvent) (w : World)
    (o : RouteOracle) : Nat × World :=
  if !(req.hasSignature && req.hasApiKey) then (400, w)
  else if !req.signatureValid then (401, w)
  else if !req.jsonValid then (400, w)
  else
    match ev with
    | .sessionStarted mid => handleSessionStarted w mid o
    | .participantLeft mid => handleParticipantLeft w mid
    | .sessionEnded mid => handleSessionEnded w mid o
    | .transcriptionReady mid url lines => handleTranscriptionReady w mid url lines o
    | .recordingReady mid url => handleRecordingReady w mid url
    | .closedCaption mid payload => handleClosedCaption w mid payload o
    | .captionsStarted mid => handleCaptionsStarted w mid
    | .otherEvent => (200, w)

/-- Spec-side description (for the amended claim C7) of exactly which
requests receive a non-success response from the route: an authentication
or JSON-parsing failure; a missing meeting id on the `session_started`,
`session_participant_left` or `session_ended` path; a missing or
start-ineligible meeting, or a missing agent, on the `session_started`
path; and a missing meeting (or unparsable call cid) on the
`transcription_ready` path. -/
def clientErrorCondition (req : RequestMeta) (ev : WebhookEvent) (w : World) : Bool :=
  !(req.hasSignature && req.hasApiKey && req.signatureValid && req.jsonValid) ||
  (match ev with
   | .sessionStarted none => true
   | .sessionStarted (some mid) =>
     (match mapGet w.meetings mid with
      | none => true
      | some meeting =>
        !(eligibleForStart meeting.status) || (mapGet w.agents meeting.agentId).isNone)
   | .participantLeft none => true
   | .sessionEnded none => true
   | .transcriptionReady none _ _ => true
   | .transcriptionReady (some mid) _ _ => (mapGet w.meetings mid).isNone
   | _ => false)

/-! ## Supporting lemmas -/

theorem mapGet_mapSet_self {α : Type} (m : List (String × α)) (k : String) (v : α) :
    mapGet (mapSet m k v) k = some v := by
  induction m with
  | nil => simp [mapSet, mapGet]
  | cons hd tl ih =>
    obtain ⟨k', v'⟩ := hd
    by_cases h : k = k'
    · simp [mapSet, h, mapGet]
    · simp [mapSet, h, mapGet, ih]

theorem mapGet_mapDelete_self {α : Type} (m : List (String × α)) (k : String) :
    mapGet (mapDelete m k) k = none := by
  induction m with
  | nil => simp [mapDelete, mapGet]
  | cons hd tl ih =>
    obtain ⟨k', v'⟩ := hd
    by_cases h : k = k'
    · subst h
      simp [mapDelete, ih]
    · simp [mapDelete, h, mapGet, ih]

theorem mapUpdateIf_not_matching {α : Type} (m : List (String × α)) (k : String)
    (p : α → Bool) (f : α → α)
    (h : ∀ v, mapGet m k = some v → p v = false) :
    mapUpdateIf m k p f = m := by
  induction m with
  | nil => simp [mapUpdateIf]
  | cons hd tl ih =>
    obtain ⟨k', v'⟩ := hd
    by_cases hk : k = k'
    · have hv := h v' (by simp [mapGet, hk])
      simp [mapUpdateIf, hk, hv]
    · have htl : ∀ v, mapGet tl k = some v → p v = false := by
        intro v hv
        exact h v (by simp [mapGet, hk, hv])
      simp [mapUpdateIf, hk, ih htl]

theorem textCaptionContent_trim (cc : JsonVal) (s : String)
    (h : textCaptionContent cc = some s) : trimNonempty s = true := by
  unfold textCaptionContent at h
  split at h
  case _ s' _ =>
    split at h
    case isTrue hne =>
      cases h
      simpa using hne
    case isFalse => exact absurd h (by simp)
  case _ => exact absurd h (by simp)

theorem knownLocations_trim (o : JsonVal) (s : String)
    (h : knownLocations o = some s) : trimNonempty s = true := by
  unfold knownLocations at h
  split at h
  case _ cc _ =>
    split at h
    case isTrue =>
      split at h
      case _ heq =>
        cases h
        exact textCaptionContent_trim cc s heq
      case _ =>
        split at h
        case _ p _ =>
          split at h
          case isTrue => exact textCaptionContent_trim p s h
          case isFalse => exact absurd h (by simp)
        case _ => exact absurd h (by simp)
    case isFalse => exact absurd h (by simp)
  case _ => exact absurd h (by simp)

theorem scanEntries_trim (recurse : JsonVal → Option String)
    (hr : ∀ v s, recurse v = some s → trimNonempty s = true) :
    ∀ (l : List (String × JsonVal)) (s : String),
      scanEntries recurse l = some s → trimNonempty s = true := by
  intro l
  induction l with
  | nil => intro s h; exact absurd h (by simp [scanEntries])
  | cons hd tl ih =>
    obtain ⟨k, v⟩ := hd
    intro s h
    match v with
    | .null | .bool _ | .num _ =>
      exact ih s (by simpa [scanEntries] using h)
    | .str sv =>
      rw [scanEntries] at h
      split at h
      case isTrue hcond =>
        cases h
        have := (Bool.and_eq_true _ _).mp hcond
        simpa using this.2
      case isFalse => exact ih s h
    | .obj fields =>
      rw [scanEntries] at h
      split at h
      case _ inner heq =>
        split at h
        case isTrue => cases h; exact hr _ _ heq
        case isFalse => exact ih s h
      case _ => exact ih s h
    | .arr elems =>
      rw [scanEntries] at h
      split at h
      case _ inner heq =>
        split at h
        case isTrue => cases h; exact hr _ _ heq
        case isFalse => exact ih s h
      case _ => exact ih s h

theorem extractGo_trim : ∀ (fuel : Nat) (j : JsonVal) (s : String),
    extractGo fuel j = some s → trimNonempty s = true := by
  intro fuel
  induction fuel with
  | zero => intro j s h; exact absurd h (by simp [extractGo])
  | succ n ih =>
    intro j s h
    rw [extractGo] at h
    split at h
    case isTrue =>
      split at h
      case _ heq => cases h; exact knownLocations_trim j s heq
      case _ => exact scanEntries_trim (extractGo n) (fun v t ht => ih v t ht) _ s h
    case isFalse => exact absurd h (by simp)

theorem extractCaptionText_trim (j : JsonVal) (s : String)
    (h : extractCaptionText j = some s) : trimNonempty s = true :=
  extractGo_trim (jsonSize j) j s h

theorem jsonSize_pos (j : JsonVal) : 0 < jsonSize j := by
  cases j <;> simp [jsonSize]

theorem jsonSizeF_le_of_mem (fields : List (String × JsonVal)) (k : String)
    (v : JsonVal) (h : (k, v) ∈ fields) : jsonSize v ≤ jsonSizeF fields := by
  induction fields with
  | nil => cases h
  | cons hd tl ih =>
    obtain ⟨k', v'⟩ := hd
    rcases List.mem_cons.mp h with heq | hmem
    · cases heq
      simp [jsonSizeF]
    · have := ih hmem
      simp [jsonSizeF]
      omega

theorem jsonSizeL_le_of_mem (elems : List JsonVal) (v : JsonVal)
    (h : v ∈ elems) : jsonSize v ≤ jsonSizeL elems := by
  induction elems with
  | nil => cases h
  | cons hd tl ih =>
    rcases List.mem_cons.mp h with heq | hmem
    · cases heq
      simp [jsonSizeL]
    · have := ih hmem
      simp [jsonSizeL]
      omega

theorem jsonSize_lt_of_mem_entries (j : JsonVal) (k : String) (v : JsonVal)
    (h : (k, v) ∈ entriesOf j) : jsonSize v < jsonSize j := by
  match j with
  | .null | .bool _ | .num _ | .str _ => simp [entriesOf] at h
  | .obj fields =>
    have := jsonSizeF_le_of_mem fields k v h
    simp [jsonSize]
    omega
  | .arr elems =>
    simp only [entriesOf, List.mem_map] at h
    obtain ⟨p, hp, heq⟩ := h
    have hv : p.2 = v := congrArg Prod.snd heq
    have hmem : v ∈ elems := by
      rw [← hv]
      exact List.getElem?_mem ((List.mem_enum_iff_getElem?).mp hp)
    have := jsonSizeL_le_of_mem elems v hmem
    simp [jsonSize]
    omega

theorem scanEntries_congr (r₁ r₂ : JsonVal → Option String)
    (l : List (String × JsonVal))
    (h : ∀ k v, (k, v) ∈ l → r₁ v = r₂ v) :
    scanEntries r₁ l = scanEntries r₂ l := by
  induction l with
  | nil => rfl
  | cons hd tl ih =>
    obtain ⟨k, v⟩ := hd
    have htl : ∀ k v, (k, v) ∈ tl → r₁ v = r₂ v := by
      intro k' v' hm
      exact h k' v' (List.mem_cons_of_mem _ hm)
    match v with
    | .null | .bool _ | .num _ => simpa [scanEntries] using ih htl
    | .str sv => simp [scanEntries, ih htl]
    | .obj fields =>
      have hv := h k (.obj fields) (List.mem_cons_self _ _)
      simp only [scanEntries, hv, ih htl]
    | .arr elems =>
      have hv := h k (.arr elems) (List.mem_cons_self _ _)
      simp only [scanEntries, hv, ih htl]

/-- Any fuel at least the size of the payload gives the same extraction
result: the fuel in `extractCaptionText` is a termination device and the
model agrees with the unbounded recursion of the source. -/
theorem extractGo_fuel_irrelevant : ∀ (f g : Nat) (j : JsonVal),
    jsonSize j ≤ f → jsonSize j ≤ g → extractGo f j = extractGo g j := by
  intro f
  induction f using Nat.strong_induction_on with
  | _ f ihf =>
    intro g j hf hg
    have hpos := jsonSize_pos j
    match f, g with
    | 0, _ => omega
    | _ + 1, 0 => omega
    | f' + 1, g' + 1 =>
      rw [extractGo, extractGo]
      split
      case isTrue =>
        have hscan : scanEntries (extractGo f') (entriesOf j)
            = scanEntries (extractGo g') (entriesOf j) := by
          apply scanEntries_congr
          intro k v hm
          have hlt := jsonSize_lt_of_mem_entries j k v hm
          exact ihf f' (by omega) g' v (by omega) (by omega)
        rw [hscan]
      case isFalse => rfl

theorem handleClosedCaption_status (w : World) (mid : Option String)
    (payload : JsonVal) (o : RouteOracle) :
    (handleClosedCaption w mid payload o).1 = 200 := by
  match mid with
  | none => rfl
  | some m =>
    rw [handleClosedCaption]
    split
    · split
      · rfl
      · split <;> rfl
    · rfl

theorem handleTranscriptionReady_status (w : World) (mid : Option String)
    (url : String) (lines : List TranscriptLine) (o : RouteOracle) :
    (handleTranscriptionReady w mid url lines o).1 = 200
      ∨ ((handleTranscriptionReady w mid url lines o).1 = 404
          ∧ (mid = none ∨ ∃ m, mid = some m ∧ mapGet w.meetings m = none)) := by
  match mid with
  | none => exact Or.inr ⟨rfl, Or.inl rfl⟩
  | some m =>
    rw [handleTranscriptionReady]
    cases hget : mapGet w.meetings m with
    | none =>
      exact Or.inr ⟨rfl, Or.inr ⟨m, rfl, hget⟩⟩
    | some meeting =>
      left
      dsimp only
      split
      · split <;> rfl
      · rfl

/-! ## Claim theorems -/

/-- C1: for every call to `processTranscription` that passes the entry
guards (session present, not already processing, speaker distinct from the
agent), the session's `isProcessing` flag is false immediately after the
call returns, for every outcome of the Gemini, text-to-speech and
Cloudinary calls — the `finally` release runs on every exit path. -/
theorem processTranscription_clears_isProcessing
    (sessions : SessionMap) (callId text speakerId : String) (o : TurnOracle)
    (s : GeminiVoiceSession)
    (hget : mapGet sessions callId = some s)
    (hflag : s.isProcessing = false)
    (hspeaker : speakerId ≠ s.agentUserId) :
    ∃ s', mapGet (processTranscription sessions callId text speakerId o) callId = some s'
      ∧ s'.isProcessing = false := by
  have hres : processTranscription sessions callId text speakerId o
      = mapSet sessions callId
          { runTurnBody { s with isProcessing := true } text o with
            isProcessing := false } := by
    simp [processTranscription, hget, hflag, hspeaker]
  rw [hres]
  exact ⟨_, mapGet_mapSet_self _ _ _, rfl⟩

theorem processTranscription_clears_isProcessing_witness :
    (mapGet (processTranscription [("c1", ⟨"c1", "agent-1", "inst", [], false, []⟩)]
        "c1" "hello" "alice" ⟨Except.error (), Except.error (), Except.error (), 7⟩)
        "c1").map (fun s => s.isProcessing) = some false := by
  obtain ⟨s', h1, h2⟩ := processTranscription_clears_isProcessing
    [("c1", ⟨"c1", "agent-1", "inst", [], false, []⟩)] "c1" "hello" "alice"
    ⟨Except.error (), Except.error (), Except.error (), 7⟩
    ⟨"c1", "agent-1", "inst", [], false, []⟩ rfl rfl (by decide)
  rw [h1]
  simp [h2]

/-- C2: the check-and-enter prefix of `processTranscription` (lines
123–132) contains no `await`, so the JavaScript event loop runs it as one
atomic step — modelled by `tryEnterTurn`.  Whichever of two overlapping
invocations runs its prefix first (they cannot interleave within it)
enters and sets `isProcessing`; the later prefix then observes the flag
and returns, and its whole invocation is a pure no-op on the store.
Hence exactly one invocation proceeds past the guard. -/
theorem tryEnterTurn_single_flight
    (sessions entered : SessionMap) (callId sp₁ sp₂ : String)
    (h : tryEnterTurn sessions callId sp₁ = some entered) :
    tryEnterTurn entered callId sp₂ = none
      ∧ ∀ text o, processTranscription entered callId text sp₂ o = entered := by
  rw [tryEnterTurn] at h
  cases hget : mapGet sessions callId with
  | none => rw [hget] at h; exact absurd h (by simp)
  | some s =>
    rw [hget] at h
    by_cases hp : s.isProcessing
    · simp [hp] at h
    · by_cases hsp : sp₁ = s.agentUserId
      · simp [hp, hsp] at h
      · simp only [hp, if_false, hsp, if_neg, Option.some.injEq, Bool.false_eq_true,
          if_neg hsp] at h
        have hget' : mapGet entered callId = some { s with isProcessing := true } := by
          rw [← h]
          exact mapGet_mapSet_self _ _ _
        constructor
        · simp [tryEnterTurn, hget']
        · intro text o
          simp [processTranscription, hget']

theorem tryEnterTurn_single_flight_witness :
    tryEnterTurn [("c1", ⟨"c1", "agent-1", "inst", [], true, []⟩)] "c1" "bob" = none
      ∧ processTranscription [("c1", ⟨"c1", "agent-1", "inst", [], true, []⟩)]
          "c1" "hey" "bob" ⟨Except.ok "r", Except.ok none, Except.ok "u", 3⟩
        = [("c1", ⟨"c1", "agent-1", "inst", [], true, []⟩)] := by
  have h := tryEnterTurn_single_flight
    [("c1", ⟨"c1", "agent-1", "inst", [], false, []⟩)]
    [("c1", ⟨"c1", "agent-1", "inst", [], true, []⟩)] "c1" "alice" "bob" rfl
  exact ⟨h.1, h.2 "hey" ⟨Except.ok "r", Except.ok none, Except.ok "u", 3⟩⟩

/-- C3: `processTranscription` is a silent no-op — the session store (and
hence every session's `conversationHistory`, `audioResponses` and
`isProcessing`) is completely unchanged, and no error is raised (the model
is a total function; the guard lines perform no throwing operation) —
whenever the session is absent, the session is already processing, or the
speaker is the session's own agent.  In particular a turn with
`speakerId = agentUserId` never mutates `conversationHistory` or
`audioResponses`. -/
theorem processTranscription_guard_silent_noop
    (sessions : SessionMap) (callId text speakerId : String) (o : TurnOracle)
    (h : mapGet sessions callId = none
      ∨ ∃ s, mapGet sessions callId = some s
          ∧ (s.isProcessing = true ∨ speakerId = s.agentUserId)) :
    processTranscription sessions callId text speakerId o = sessions := by
  rcases h with habs | ⟨s, hget, hcase⟩
  · simp [processTranscription, habs]
  · rcases hcase with hp | hsp
    · simp [processTranscription, hget, hp]
    · by_cases hp : s.isProcessing <;>
        simp [processTranscription, hget, hp, hsp]

theorem processTranscription_guard_silent_noop_witness :
    processTranscription [("c1", ⟨"c1", "agent-1", "inst", [], false, []⟩)]
        "c1" "hi there" "agent-1" ⟨Except.ok "r", Except.ok none, Except.ok "u", 3⟩
      = [("c1", ⟨"c1", "agent-1", "inst", [], false, []⟩)] := by
  exact processTranscription_guard_silent_noop _ "c1" "hi there" "agent-1" _
    (Or.inr ⟨⟨"c1", "agent-1", "inst", [], false, []⟩, rfl, Or.inr rfl⟩)

/-- C10: `processTranscription` is not atomic on error — when the Gemini
call rejects after the user message was appended, the user message stays
in `conversationHistory`, no assistant entry and no `audioResponses` entry
is added, the error is caught (the call returns normally: the model is a
total function), and `isProcessing` is released. -/
theorem processTranscription_model_error_keeps_user_message
    (sessions : SessionMap) (callId text speakerId : String) (o : TurnOracle)
    (s : GeminiVoiceSession)
    (hget : mapGet sessions callId = some s)
    (hflag : s.isProcessing = false)
    (hspeaker : speakerId ≠ s.agentUserId)
    (e : Unit) (herr : o.geminiText = Except.error e) :
    mapGet (processTranscription sessions callId text speakerId o) callId
      = some { s with
          conversationHistory := s.conversationHistory ++ [⟨"user", text⟩],
          isProcessing := false } := by
  have hres : processTranscription sessions callId text speakerId o
      = mapSet sessions callId
          { runTurnBody { s with isProcessing := true } text o with
            isProcessing := false } := by
    simp [processTranscription, hget, hflag, hspeaker]
  rw [hres]
  have hbody : runTurnBody { s with isProcessing := true } text o
      = { s with
          isProcessing := true,
          conversationHistory := s.conversationHistory ++ [⟨"user", text⟩] } := by
    simp [runTurnBody, generateGeminiResponse, herr]
  rw [hbody]
  exact mapGet_mapSet_self _ _ _

theorem processTranscription_model_error_keeps_user_message_witness :
    mapGet (processTranscription [("c1", ⟨"c1", "agent-1", "inst",
        [⟨"user", "old"⟩], false, []⟩)] "c1" "fresh" "alice"
        ⟨Except.error (), Except.ok (some [1]), Except.ok "u", 3⟩) "c1"
      = some ⟨"c1", "agent-1", "inst", [⟨"user", "old"⟩, ⟨"user", "fresh"⟩], false, []⟩ := by
  exact processTranscription_model_error_keeps_user_message
    [("c1", ⟨"c1", "agent-1", "inst", [⟨"user", "old"⟩], false, []⟩)]
    "c1" "fresh" "alice" ⟨Except.error (), Except.ok (some [1]), Except.ok "u", 3⟩
    ⟨"c1", "agent-1", "inst", [⟨"user", "old"⟩], false, []⟩
    rfl rfl (by decide) () rfl

/-- C4 refutation: a turn that passes the guards and obtains the reply
"hello" (the assistant entry lands in `conversationHistory`), whose
synthesis produces audio but whose Cloudinary publication fails, appends
nothing to `audioResponses` — the inner catch (part_000 lines 175–180)
only logs; it does not degrade to a text-only record as the claim states.
The same skip happens when `textToSpeech` itself rejects. -/
theorem processTranscription_publish_failure_skips_append :
    mapGet (processTranscription [("c1", ⟨"c1", "agent-1", "inst", [], false, []⟩)]
        "c1" "hi" "alice" ⟨Except.ok "hello", Except.ok (some [1]), Except.error (), 7⟩)
        "c1"
      = some ⟨"c1", "agent-1", "inst",
          [⟨"user", "hi"⟩, ⟨"assistant", "hello"⟩], false, []⟩ := by
  rfl

/-- C4 as amended: for every turn that passes the guards and obtains a
model reply, the `audioResponses` entry `{text, audioUrl, timestamp}` is
appended with the published URL when synthesis and publication succeed,
and with an empty `audioUrl` when synthesis is unavailable (no TTS client
configured, `textToSpeech` returns null); but when synthesis raises or
publication fails, no entry is appended at all — the reply is recorded
only in `conversationHistory`. -/
theorem processTranscription_audio_record_cases
    (sessions : SessionMap) (callId text speakerId : String) (o : TurnOracle)
    (s : GeminiVoiceSession) (reply : String)
    (hget : mapGet sessions callId = some s)
    (hflag : s.isProcessing = false)
    (hspeaker : speakerId ≠ s.agentUserId)
    (hreply : generateGeminiResponse o.geminiText = Except.ok reply) :
    ∃ s', mapGet (processTranscription sessions callId text speakerId o) callId = some s'
      ∧ (o.ttsAudio = Except.ok none →
          s'.audioResponses = s.audioResponses ++ [⟨reply, "", o.now⟩])
      ∧ (∀ buf url, o.ttsAudio = Except.ok (some buf) → o.uploadUrl = Except.ok url →
          s'.audioResponses = s.audioResponses ++ [⟨reply, url, o.now⟩])
      ∧ (∀ e, o.ttsAudio = Except.error e → s'.audioResponses = s.audioResponses)
      ∧ (∀ buf e, o.ttsAudio = Except.ok (some buf) → o.uploadUrl = Except.error e →
          s'.audioResponses = s.audioResponses) := by
  have hres : processTranscription sessions callId text speakerId o
      = mapSet sessions callId
          { runTurnBody { s with isProcessing := true } text o with
            isProcessing := false } := by
    simp [processTranscription, hget, hflag, hspeaker]
  rw [hres]
  refine ⟨_, mapGet_mapSet_self _ _ _, ?_, ?_, ?_, ?_⟩
  · intro htts
    simp [runTurnBody, hreply, htts]
  · intro buf url htts hup
    simp [runTurnBody, hreply, htts, hup]
  · intro e htts
    simp [runTurnBody, hreply, htts]
  · intro buf e htts hup
    simp [runTurnBody, hreply, htts, hup]

theorem processTranscription_audio_record_cases_witness :
    (mapGet (processTranscription [("c1", ⟨"c1", "agent-1", "inst", [], false, []⟩)]
        "c1" "hi" "alice" ⟨Except.ok "hello", Except.ok none, Except.ok "unused", 7⟩)
        "c1").map (fun s => s.audioResponses) = some [⟨"hello", "", 7⟩] := by
  obtain ⟨s', h1, h2, _, _, _⟩ := processTranscription_audio_record_cases
    [("c1", ⟨"c1", "agent-1", "inst", [], false, []⟩)] "c1" "hi" "alice"
    ⟨Except.ok "hello", Except.ok none, Except.ok "unused", 7⟩
    ⟨"c1", "agent-1", "inst", [], false, []⟩ "hello" rfl rfl (by decide) rfl
  rw [h1]
  simp [h2 rfl]

/-- C5: on `call.session_started`, when the meeting is absent or its
status lies in {active, completed, cancelled, processing}, the handler
rejects the event (404) with the world — status and session store —
completely unchanged; and when the meeting is eligible, its status is set
to `active`. -/
theorem sessionStarted_guarded_transition
    (w : World) (mid : String) (o : RouteOracle) :
    ((∀ m, mapGet w.meetings mid = some m → eligibleForStart m.status = false) →
      handleSessionStarted w (some mid) o = (404, w))
    ∧ (∀ m, mapGet w.meetings mid = some m → eligibleForStart m.status = true →
        mapGet (handleSessionStarted w (some mid) o).2.meetings mid
          = some { m with status := MeetingStatus.active, startedAt := some o.now }) := by
  constructor
  · intro hblocked
    rw [handleSessionStarted]
    cases hget : mapGet w.meetings mid with
    | none => rfl
    | some m =>
      have := hblocked m hget
      simp [this]
  · intro m hget helig
    rw [handleSessionStarted, hget]
    simp only [helig, if_true]
    cases hag : mapGet w.agents m.agentId with
    | none =>
      simp [mapGet_mapSet_self]
    | some agent =>
      by_cases hup : o.upsertRetryOk <;>
        simp [hup, mapGet_mapSet_self]

theorem sessionStarted_guarded_transition_witness :
    handleSessionStarted ⟨[("m1", ⟨"a1", MeetingStatus.active, none, none, none, none⟩)],
        [("a1", ⟨"Bot", "be nice"⟩)], []⟩ (some "m1")
        ⟨true, true, fun _ => ⟨Except.ok "r", Except.ok none, Except.ok "u", 0⟩, 9⟩
      = (404, ⟨[("m1", ⟨"a1", MeetingStatus.active, none, none, none, none⟩)],
          [("a1", ⟨"Bot", "be nice"⟩)], []⟩)
    ∧ mapGet (handleSessionStarted ⟨[("m2", ⟨"a1", MeetingStatus.upcoming, none, none, none, none⟩)],
        [("a1", ⟨"Bot", "be nice"⟩)], []⟩ (some "m2")
        ⟨true, true, fun _ => ⟨Except.ok "r", Except.ok none, Except.ok "u", 0⟩, 9⟩).2.meetings "m2"
      = some ⟨"a1", MeetingStatus.active, some 9, none, none, none⟩ := by
  constructor
  · exact (sessionStarted_guarded_transition _ "m1" _).1
      (by
        intro m hm
        simp [mapGet] at hm
        rw [← hm]
        rfl)
  · exact (sessionStarted_guarded_transition _ "m2" _).2
      ⟨"a1", MeetingStatus.upcoming, none, none, none, none⟩ rfl rfl

/-- C6 refutation: a session for "m1" with a non-empty history exists
(lazily created by an earlier caption event) while the meeting is still
`upcoming`; a `call.session_started` event then passes the status guard
and `startSession` overwrites the existing session, resetting its
`conversationHistory` to empty — a creation path does replace an existing
session for the same id. -/
theorem sessionStarted_replaces_existing_session :
    (mapGet (handleSessionStarted
        ⟨[("m1", ⟨"a1", MeetingStatus.upcoming, none, none, none, none⟩)],
          [("a1", ⟨"Bot", "be nice"⟩)],
          [("m1", ⟨"m1", "a1", "be nice", [⟨"user", "hi"⟩], false, []⟩)]⟩
        (some "m1")
        ⟨true, true, fun _ => ⟨Except.ok "r", Except.ok none, Except.ok "u", 0⟩, 9⟩).2.sessions
        "m1").map (fun s => s.conversationHistory) = some []
    ∧ (mapGet [("m1", GeminiVoiceSession.mk "m1" "a1" "be nice" [⟨"user", "hi"⟩] false [])]
        "m1").map (fun s => s.conversationHistory) = some [⟨"user", "hi"⟩] := by
  exact ⟨rfl, rfl⟩

/-- C6 as amended: the lazy ensure path creates a session iff none exists
— an existing session short-circuits with `true` and the world untouched,
and a missing session with resolvable meeting and agent yields a fresh
session — but the explicit start on `call.session_started` calls
`startSession`, which unconditionally installs a fresh session (empty
history), replacing any existing session for the same id. -/
theorem ensure_lazy_vs_explicit_start
    (w : World) (mid : String) :
    (hasSession w.sessions mid = true → ensureGeminiSessionForMeeting w mid = (true, w))
    ∧ (hasSession w.sessions mid = false →
        ∀ m a, mapGet w.meetings mid = some m → mapGet w.agents m.agentId = some a →
          ensureGeminiSessionForMeeting w mid
            = (true, { w with sessions := startSession w.sessions mid m.agentId a.instructions }))
    ∧ (∀ (sessions : SessionMap) (callId agentId instr : String),
        mapGet (startSession sessions callId agentId instr) callId
          = some ⟨callId, agentId, instr, [], false, []⟩) := by
  refine ⟨?_, ?_, ?_⟩
  · intro h
    simp [ensureGeminiSessionForMeeting, h]
  · intro h m a hm ha
    simp [ensureGeminiSessionForMeeting, h, hm, ha]
  · intro sessions callId agentId instr
    exact mapGet_mapSet_self _ _ _

theorem ensure_lazy_vs_explicit_start_witness :
    ensureGeminiSessionForMeeting
        ⟨[("m1", ⟨"a1", MeetingStatus.upcoming, none, none, none, none⟩)],
          [("a1", ⟨"Bot", "be nice"⟩)],
          [("m1", ⟨"m1", "a1", "be nice", [⟨"user", "hi"⟩], false, []⟩)]⟩ "m1"
      = (true, ⟨[("m1", ⟨"a1", MeetingStatus.upcoming, none, none, none, none⟩)],
          [("a1", ⟨"Bot", "be nice"⟩)],
          [("m1", ⟨"m1", "a1", "be nice", [⟨"user", "hi"⟩], false, []⟩)]⟩)
    ∧ mapGet (startSession [("m1", GeminiVoiceSession.mk "m1" "a1" "be nice"
        [⟨"user", "hi"⟩] false [])] "m1" "a1" "be nice") "m1"
      = some ⟨"m1", "a1", "be nice", [], false, []⟩ := by
  constructor
  · exact (ensure_lazy_vs_explicit_start _ "m1").1 rfl
  · exact (ensure_lazy_vs_explicit_start
      ⟨[], [], [("m1", GeminiVoiceSession.mk "m1" "a1" "be nice" [⟨"user", "hi"⟩] false [])]⟩
      "m1").2.2 _ "m1" "a1" "be nice"

/-- C8: the `call.session_ended` handler removes the voice session, and
the removal is the same whatever the meeting status is — in particular it
still happens when the guarded `active → processing` transition is a
no-op because the meeting is not currently `active` (then the meetings
table is left untouched as well). -/
theorem sessionEnded_removes_session_regardless
    (w : World) (mid : String) (o : RouteOracle) :
    (handleSessionEnded w (some mid) o).2.sessions = mapDelete w.sessions mid
    ∧ hasSession (handleSessionEnded w (some mid) o).2.sessions mid = false
    ∧ (∀ m, mapGet w.meetings mid = some m → m.status ≠ MeetingStatus.active →
        (handleSessionEnded w (some mid) o).2.meetings = w.meetings) := by
  refine ⟨rfl, ?_, ?_⟩
  · show mapHas (mapDelete w.sessions mid) mid = false
    simp [mapHas, mapGet_mapDelete_self]
  · intro m hm hstatus
    show mapUpdateIf w.meetings mid _ _ = w.meetings
    apply mapUpdateIf_not_matching
    intro v hv
    rw [hm] at hv
    cases hv
    simpa using hstatus

theorem sessionEnded_removes_session_regardless_witness :
    (handleSessionEnded ⟨[("m1", ⟨"a1", MeetingStatus.processing, none, none, none, none⟩)],
        [], [("m1", ⟨"m1", "a1", "be nice", [], false, []⟩)]⟩ (some "m1")
        ⟨true, true, fun _ => ⟨Except.ok "r", Except.ok none, Except.ok "u", 0⟩, 9⟩).2.sessions
      = []
    ∧ (handleSessionEnded ⟨[("m1", ⟨"a1", MeetingStatus.processing, none, none, none, none⟩)],
        [], [("m1", ⟨"m1", "a1", "be nice", [], false, []⟩)]⟩ (some "m1")
        ⟨true, true, fun _ => ⟨Except.ok "r", Except.ok none, Except.ok "u", 0⟩, 9⟩).2.meetings
      = [("m1", ⟨"a1", MeetingStatus.processing, none, none, none, none⟩)] := by
  have h := sessionEnded_removes_session_regardless
    ⟨[("m1", ⟨"a1", MeetingStatus.processing, none, none, none, none⟩)],
      [], [("m1", ⟨"m1", "a1", "be nice", [], false, []⟩)]⟩ "m1"
    ⟨true, true, fun _ => ⟨Except.ok "r", Except.ok none, Except.ok "u", 0⟩, 9⟩
  refine ⟨?_, h.2.2 ⟨"a1", MeetingStatus.processing, none, none, none, none⟩ rfl (by decide)⟩
  rw [h.1]
  rfl

/-- C7 refutation: an authenticated, well-formed `call.session_ended`
event whose payload lacks `call.custom.meetingId` receives a 400 client
error (route.ts lines 278–280), although `session_ended` is neither the
`session_started` nor the `transcription_ready` path — so client errors
are not confined to the paths the claim lists. -/
theorem sessionEnded_missing_meetingId_client_error :
    webhookPost ⟨true, true, true, true⟩ (WebhookEvent.sessionEnded none) ⟨[], [], []⟩
        ⟨true, true, fun _ => ⟨Except.ok "r", Except.ok none, Except.ok "u", 0⟩, 9⟩
      = (400, ⟨[], [], []⟩) := by
  rfl

/-- C7 as amended: the endpoint returns a non-success status exactly for
authentication failures (missing headers, invalid signature), JSON-parse
failure, a missing meeting id on the `session_started`,
`session_participant_left` and `session_ended` paths, a missing or
start-ineligible meeting or a missing agent on the `session_started` path,
and a missing meeting on the `transcription_ready` path; every other
recognized or unrecognized event returns a success acknowledgment, even
when internal processing (identity upsert, model, synthesis, publish,
transcript fetch) fails. -/
theorem webhookPost_clientError_iff
    (req : RequestMeta) (ev : WebhookEvent) (w : World) (o : RouteOracle) :
    ((webhookPost req ev w o).1 ≠ 200) ↔ clientErrorCondition req ev w = true := by
  obtain ⟨hs, hk, hv, hj⟩ := req
  match hs, hk, hv, hj with
  | false, _, _, _ => simp [webhookPost, clientErrorCondition]
  | true, false, _, _ => simp [webhookPost, clientErrorCondition]
  | true, true, false, _ => simp [webhookPost, clientErrorCondition]
  | true, true, true, false => simp [webhookPost, clientErrorCondition]
  | true, true, true, true =>
    cases ev with
    | sessionStarted mid =>
      match mid with
      | none => simp [webhookPost, clientErrorCondition, handleSessionStarted]
      | some m =>
        have hL : webhookPost ⟨true, true, true, true⟩
            (WebhookEvent.sessionStarted (some m)) w o
            = handleSessionStarted w (some m) o := rfl
        have hR : clientErrorCondition ⟨true, true, true, true⟩
            (WebhookEvent.sessionStarted (some m)) w
            = (match mapGet w.meetings m with
               | none => true
               | some meeting =>
                 !(eligibleForStart meeting.status)
                   || (mapGet w.agents meeting.agentId).isNone) := rfl
        rw [hL, hR, handleSessionStarted]
        cases hget : mapGet w.meetings m with
        | none => simp
        | some meeting =>
          by_cases helig : eligibleForStart meeting.status
          · simp only [helig, if_true]
            cases hag : mapGet w.agents meeting.agentId with
            | none => simp
            | some agent =>
              by_cases hup : o.upsertRetryOk <;> simp [hup, helig]
          · simp [helig]
    | participantLeft mid =>
      match mid with
      | none => simp [webhookPost, clientErrorCondition, handleParticipantLeft]
      | some m => simp [webhookPost, clientErrorCondition, handleParticipantLeft]
    | sessionEnded mid =>
      match mid with
      | none => simp [webhookPost, clientErrorCondition, handleSessionEnded]
      | some m => simp [webhookPost, clientErrorCondition, handleSessionEnded]
    | transcriptionReady mid url lines =>
      match mid with
      | none => simp [webhookPost, clientErrorCondition, handleTranscriptionReady]
      | some m =>
        have hL : webhookPost ⟨true, true, true, true⟩
            (WebhookEvent.transcriptionReady (some m) url lines) w o
            = handleTranscriptionReady w (some m) url lines o := rfl
        have hR : clientErrorCondition ⟨true, true, true, true⟩
            (WebhookEvent.transcriptionReady (some m) url lines) w
            = (mapGet w.meetings m).isNone := rfl
        rw [hL, hR, handleTranscriptionReady]
        cases hget : mapGet w.meetings m with
        | none => simp
        | some meeting =>
          dsimp only
          split
          · split <;> simp
          · simp
    | recordingReady mid url =>
      match mid with
      | none => simp [webhookPost, clientErrorCondition, handleRecordingReady]
      | some m => simp [webhookPost, clientErrorCondition, handleRecordingReady]
    | closedCaption mid payload =>
      have hL : webhookPost ⟨true, true, true, true⟩
          (WebhookEvent.closedCaption mid payload) w o
          = handleClosedCaption w mid payload o := rfl
      have hR : clientErrorCondition ⟨true, true, true, true⟩
          (WebhookEvent.closedCaption mid payload) w = false := rfl
      rw [hL, hR, handleClosedCaption_status]
      simp
    | captionsStarted mid =>
      match mid with
      | none => simp [webhookPost, clientErrorCondition, handleCaptionsStarted]
      | some m => simp [webhookPost, clientErrorCondition, handleCaptionsStarted]
    | otherEvent => simp [webhookPost, clientErrorCondition]

/-- C9: `extractCaptionText` returns only non-blank strings (so every
failure — missing fields, wrong types, malformed structure — yields the
"no text found" `none`, and the model is a total function: no step of the
source body can throw).  The conjuncts exercise the documented search
order on concrete payloads: empty object, empty caption substructure and
deep text-free nesting give `none`; the direct `closed_caption.text`
location wins over a fallback key; the nested `closed_caption.payload.text`
location wins over a fallback key; a text-like key found only by the
recursive scan is returned; wrong-typed known locations degrade to the
scan without faulting; and a non-object payload gives `none`. -/
theorem extractCaptionText_contract :
    (∀ j s, extractCaptionText j = some s → trimNonempty s = true)
    ∧ extractCaptionText (.obj []) = none
    ∧ extractCaptionText (.obj [("closed_caption", .obj [])]) = none
    ∧ extractCaptionText (.obj [("a", .obj [("b", .obj [("note", .str "x")])])]) = none
    ∧ extractCaptionText (.obj [("closed_caption", .obj [("text", .str "direct")]),
        ("text", .str "fallback")]) = some "direct"
    ∧ extractCaptionText (.obj [("closed_caption",
        .obj [("payload", .obj [("text", .str "nested")])]),
        ("text", .str "fallback")]) = some "nested"
    ∧ extractCaptionText (.obj [("wrapper", .obj [("content", .str "scanned")])])
        = some "scanned"
    ∧ extractCaptionText (.obj [("closed_caption", .str "oops"), ("caption", .num 5)])
        = none
    ∧ extractCaptionText (.str "hello") = none := by
  exact ⟨extractCaptionText_trim, rfl, rfl, rfl, rfl, rfl, rfl, rfl, rfl⟩

theorem extractCaptionText_contract_witness :
    extractCaptionText (.obj [("text", .str " hi ")]) = some " hi "
    ∧ trimNonempty " hi " = true := by
  exact ⟨rfl, extractCaptionText_contract.1 (.obj [("text", .str " hi ")]) " hi " rfl⟩

end HelloAiGem
